import Mathlib

/-!
Verification development for the butler prototype's dimension / data-coordinate
model and a few registry-level operations.

The definitions below are a shallow embedding of the Python sources:

* `core/dimensions/_coordinate.py` (`DataCoordinate`, `_BasicTupleDataCoordinate`,
  `_ExpandedTupleDataCoordinate`, `_intersectRegions`),
* `core/dimensions/_universe.py` (`DimensionUniverse.__new__`, `_unpickle`),
* `core/named.py` (`NamedKeyMapping.byName`),
* `registry/datasets/byDimensions/_storage.py` (`associate`, `disassociate`),
* `transfers/_yaml.py` (`YamlRepoImportBackend.__init__` kind dispatch).

Python exceptions are modelled with `Except`; assertions are modelled as
raising (the behaviour with assertions enabled).  `DimensionGraph`,
`DimensionElement` and `Timespan` live in repository files that are not part
of the sources here (`_graph.py`, `_elements.py`, `timespan.py`); the small
amount of their behaviour the claims depend on is modelled from the spec and
from the documented contracts in `_coordinate.py` and is marked as such.
-/

namespace Butler

/-- A primary-key value in a data ID: a string, an integer, or null
(`DataIdValue = Union[str, int, None]` in `_coordinate.py`).  Integer values
are kept in one canonical constructor, matching the normalization of
alternate integer representations done by `standardize`. -/
inductive DataIdValue where
  | str (s : String)
  | int (n : Int)
  | null
deriving DecidableEq, Hashable, Repr

/-- An opaque spatial region (`lsst.sphgeom.Region` is an external library;
only identity of regions matters to the verified claims). -/
structure Region where
  rid : Nat
deriving DecidableEq, Hashable, Repr

/-- Modelled from the spec: a `Timespan` is a half-open interval either bound
of which may be unbounded (`timespan.py` is not among the sources).  `none`
bounds are unbounded.  Field names avoid the Lean keyword for the upper
bound. -/
structure TimespanV where
  tbegin : Option Int
  tend : Option Int
deriving DecidableEq, Hashable, Repr

/-- A resolved dimension record (`DimensionRecord` in `_records.py`, not among
the sources).  Modelled from the spec and from the attribute accesses in
`_coordinate.py`: the record carries the primary-key value of its element
(`getattr(record, d.primaryKey.name)`), an optional `region` and an optional
`timespan`. -/
structure DimensionRecord where
  key : DataIdValue
  region : Option Region
  timespan : Option TimespanV
deriving DecidableEq, Hashable, Repr

/-- Modelled from the spec: a topological (spatial or temporal) family of a
graph.  `_coordinate.py` only uses `family.choose(self.graph.elements)`, which
selects the best element of the family for this graph; the model stores the
name of that chosen element directly. -/
structure TopoFamily where
  chooseName : String
deriving DecidableEq, Hashable, Repr

/-- Modelled from the spec: the definition of one dimension in a universe,
with its required and implied dependency names and optional topological
family memberships (`_elements.py` is not among the sources). -/
structure DimensionDef where
  name : String
  requiredDeps : List String
  impliedDeps : List String
  spatialFamilyName : Option String
  temporalFamilyName : Option String
deriving DecidableEq, Hashable, Repr

/-- Modelled from the spec: a `DimensionGraph` (`_graph.py` is not among the
sources) is the interned closure of a name set, split into `required` and
`implied` dimensions, with spatial and temporal family projections.  It also
remembers the dimension definitions of its universe so that
`graph.universe` can be recovered (in Python the graph holds a reference to
the universe).  The ordering contract used by `_coordinate.py` is documented
there: `_dataCoordinateIndices` lists required dimensions first, then implied
ones. -/
structure DimensionGraph where
  universeVersion : Nat
  universeDims : List DimensionDef
  required : List String
  implied : List String
  spatial : List TopoFamily
  temporal : List TopoFamily
deriving DecidableEq, Hashable, Repr

/-- The names of all dimensions in the graph, in the order of
`graph._dataCoordinateIndices` (required first, then implied), as documented
in `_coordinate.py`.  As a set this coincides with
`graph.dimensions.names`. -/
def DimensionGraph.dimensionNames (g : DimensionGraph) : List String :=
  g.required ++ g.implied

/-- Modelled from the spec: the interning invariant needed by the claims.  A
graph over the empty name set is the universe's unique `empty` graph, so it
has no topological families. -/
def DimensionGraph.WF (g : DimensionGraph) : Prop :=
  g.required = [] → g.implied = [] → g.spatial = [] ∧ g.temporal = []

/-- The exceptions raised by the data-coordinate code paths modelled here. -/
inductive DataIdError where
  | typeError (msg : String)
  | keyError (name : String)
  | attributeError (name : String)
  | assertionError
deriving DecidableEq, Repr

/-- Lookup in an association list (the model of a Python `dict` /
`Mapping`). -/
def alookup {κ α : Type} [DecidableEq κ] : List (κ × α) → κ → Option α
  | [], _ => none
  | (k, v) :: rest, key => if k = key then some v else alookup rest key

/-- `d[k] = v` on the association-list model of a `dict`: the new binding
shadows any previous one. -/
def dictInsert {α : Type} (d : List (String × α)) (k : String) (v : α) :
    List (String × α) :=
  (k, v) :: d.filter (fun p => p.1 ≠ k)

/-- `d.update(kvs)` on the association-list model of a `dict`: later pairs
win, and pairs of `kvs` win over `d`. -/
def dictUpdate {α : Type} (d kvs : List (String × α)) : List (String × α) :=
  kvs.foldl (fun acc p => dictInsert acc p.1 p.2) d

/-- Index of the first occurrence of `key` in a name list; models the lookup
in `graph._dataCoordinateIndices`. -/
def idxOf? (key : String) : List String → Option Nat
  | [] => none
  | n :: rest => if n = key then some 0 else (idxOf? key rest).map (· + 1)

/-- The two concrete `DataCoordinate` implementations in `_coordinate.py`:
`_BasicTupleDataCoordinate` (a graph plus a value tuple covering either just
the required dimensions or all of them) and `_ExpandedTupleDataCoordinate`
(additionally a mapping from element names to optional records). -/
inductive DataCoordinate where
  | basic (graph : DimensionGraph) (values : List DataIdValue)
  | expandedTuple (graph : DimensionGraph) (values : List DataIdValue)
      (records : List (String × Option DimensionRecord))
deriving DecidableEq, Repr

namespace DataCoordinate

/-- `self._graph`. -/
def graph : DataCoordinate → DimensionGraph
  | basic g _ => g
  | expandedTuple g _ _ => g

/-- `self._values`. -/
def values : DataCoordinate → List DataIdValue
  | basic _ vs => vs
  | expandedTuple _ vs _ => vs

/-- `__getitem__` of `_BasicTupleDataCoordinate`: look the key up in
`graph._dataCoordinateIndices` and index into the value tuple; a missing key
or an index past the end of the tuple raises `KeyError` (modelled as
`none`). -/
def getItem? (c : DataCoordinate) (key : String) : Option DataIdValue :=
  match idxOf? key c.graph.dimensionNames with
  | some i => c.values[i]?
  | none => none

/-- `hasFull`: the basic implementation compares the tuple length with the
number of `_dataCoordinateIndices`; the expanded implementation always
returns `True`. -/
def hasFull : DataCoordinate → Bool
  | basic g vs => vs.length == g.dimensionNames.length
  | expandedTuple _ _ _ => true

/-- `hasRecords`: `False` for the basic implementation, `True` for the
expanded one. -/
def hasRecords : DataCoordinate → Bool
  | basic _ _ => false
  | expandedTuple _ _ _ => true

/-- `tuple(self[k] for k in names)`: evaluate `__getitem__` at each name,
propagating the `KeyError` of the first missing one. -/
def getValues (c : DataCoordinate) : List String → Except DataIdError (List DataIdValue)
  | [] => .ok []
  | n :: rest =>
    match c.getItem? n with
    | none => .error (.keyError n)
    | some v =>
      match c.getValues rest with
      | .error e => .error e
      | .ok vs => .ok (v :: vs)

/-- `[(name, self[name]) for name in names]`, used both by
`NamedKeyMapping.byName` and the coordinate branch of `standardize`. -/
def getPairs (c : DataCoordinate) : List String → Except DataIdError (List (String × DataIdValue))
  | [] => .ok []
  | n :: rest =>
    match c.getItem? n with
    | none => .error (.keyError n)
    | some v =>
      match c.getPairs rest with
      | .error e => .error e
      | .ok ps => .ok ((n, v) :: ps)

/-- `NamedKeyMapping.byName` (`named.py`) applied to a `DataCoordinate`:
`dict(zip(self.names, self.values()))`, where the keys of a coordinate are
exactly `graph.required`. -/
def byName (c : DataCoordinate) : Except DataIdError (List (String × DataIdValue)) :=
  c.getPairs c.graph.required

end DataCoordinate

/-- `DimensionUniverse` (`_universe.py`): version-keyed, with the dimension
definitions and the named packer factories built by the construction
builder.  A packer factory is modelled as a function from a coordinate to the
`(packed, maxBits)` pair returned by `DimensionPacker.pack` with
`returnMaxBits=True`. -/
structure DimensionUniverse where
  version : Nat
  dims : List DimensionDef
  packers : List (String × (DataCoordinate → Nat × Nat))

/-- `universe.empty`: the graph that contains no dimensions
(`DimensionGraph(self, (), conform=False)` in `DimensionUniverse.__new__`). -/
def DimensionUniverse.empty (u : DimensionUniverse) : DimensionGraph :=
  ⟨u.version, u.dims, [], [], [], []⟩

/-- `graph.universe`: the universe a graph was built from.  The packer table
is not reachable from a graph in this model; no code path modelled here uses
packers of a universe recovered from a graph. -/
def DimensionGraph.universe (g : DimensionGraph) : DimensionUniverse :=
  ⟨g.universeVersion, g.universeDims, []⟩

/-- Modelled from the spec: one step of the dependency-closure fixed point of
`DimensionGraph` construction (`expand` in `_universe.py` delegates to the
missing `_graph.py`): add the dependency names, selected by `deps`, of every
definition already in the set. -/
def closureStep (deps : DimensionDef → List String) (dims : List DimensionDef)
    (names : List String) : List String :=
  (names ++ (dims.filter (fun d => d.name ∈ names)).flatMap deps).dedup

/-- Modelled from the spec: the dependency closure computed by fixed-point
iteration; `dims.length` rounds suffice because each round either adds a
dimension or is already stable. -/
def closureBy (deps : DimensionDef → List String) (dims : List DimensionDef)
    (names : List String) : List String :=
  (List.range (dims.length + 1)).foldl (fun acc _ => closureStep deps dims acc) names.dedup

/-- Modelled from the spec: the topological families of the dimensions in
`full`, each choosing its first member in `full` as the element that
`family.choose` returns for the graph. -/
def familiesOf (sel : DimensionDef → Option String) (dims : List DimensionDef)
    (full : List String) : List TopoFamily :=
  (((dims.filter (fun d => d.name ∈ full)).filterMap sel).dedup).map fun f =>
    match (dims.filter (fun d => d.name ∈ full)).find? (fun d => sel d == some f) with
    | some d => ⟨d.name⟩
    | none => ⟨f⟩

/-- Modelled from the spec: `DimensionGraph(universe, names)` — the interned
closure of a requested name set.  Required dimensions are the closure of the
names under required dependencies; implied dimensions are the remainder of
the closure under all dependencies. -/
def DimensionUniverse.inferGraph (u : DimensionUniverse) (names : List String) :
    DimensionGraph :=
  let req := closureBy (fun d => d.requiredDeps) u.dims names
  let full := closureBy (fun d => d.requiredDeps ++ d.impliedDeps) u.dims names
  ⟨u.version, u.dims, req, full.filter (· ∉ req),
    familiesOf (fun d => d.spatialFamilyName) u.dims full,
    familiesOf (fun d => d.temporalFamilyName) u.dims full⟩

namespace DataCoordinate

/-- `DataCoordinate.makeEmpty`:
`_ExpandedTupleDataCoordinate(universe.empty, (), {})`. -/
def makeEmpty (u : DimensionUniverse) : DataCoordinate :=
  .expandedTuple u.empty [] []

/-- `DataCoordinate.fromRequiredValues`, including its `assert` that the
value tuple matches `graph.required` in length. -/
def fromRequiredValues (g : DimensionGraph) (vs : List DataIdValue) :
    Except DataIdError DataCoordinate :=
  if vs.length = g.required.length then .ok (.basic g vs) else .error .assertionError

/-- `DataCoordinate.fromFullValues`, including its `assert` that the value
tuple matches `graph.dimensions` in length. -/
def fromFullValues (g : DimensionGraph) (vs : List DataIdValue) :
    Except DataIdError DataCoordinate :=
  if vs.length = g.dimensionNames.length then .ok (.basic g vs) else .error .assertionError

/-- `subset` of both concrete implementations.  For the basic one: identity
when the graph is unchanged; a full value tuple when the source has full
values or its required set covers the whole target dimension set; otherwise a
required-only tuple.  The expanded implementation rebuilds a full tuple and
keeps its records. -/
def subset (c : DataCoordinate) (target : DimensionGraph) :
    Except DataIdError DataCoordinate :=
  match c with
  | .basic g vs =>
    if g = target then .ok (.basic g vs)
    else if (DataCoordinate.basic g vs).hasFull
        || target.dimensionNames.all (· ∈ g.required) then
      match (DataCoordinate.basic g vs).getValues target.dimensionNames with
      | .error e => .error e
      | .ok v => .ok (.basic target v)
    else
      match (DataCoordinate.basic g vs).getValues target.required with
      | .error e => .error e
      | .ok v => .ok (.basic target v)
  | .expandedTuple g vs recs =>
    if g = target then .ok (.expandedTuple g vs recs)
    else
      match (DataCoordinate.expandedTuple g vs recs).getValues target.dimensionNames with
      | .error e => .error e
      | .ok v => .ok (.expandedTuple target v recs)

/-- The `expanded` method.  The expanded implementation returns itself.  The
basic one extends a required-only tuple with the primary-key attribute of the
record of each implied dimension (`records[d.name]` raising `KeyError` for a
missing element, `getattr(None, ...)` raising `AttributeError` for a null
record) and then constructs `_ExpandedTupleDataCoordinate`, whose `__init__`
asserts that the resulting tuple is full. -/
def expanded (c : DataCoordinate)
    (records : List (String × Option DimensionRecord)) :
    Except DataIdError DataCoordinate :=
  match c with
  | .expandedTuple g vs recs => .ok (.expandedTuple g vs recs)
  | .basic g vs =>
    if (DataCoordinate.basic g vs).hasFull then
      mkExpanded g vs records
    else
      match impliedKeys records g.implied with
      | .error e => .error e
      | .ok extra => mkExpanded g (vs ++ extra) records
where
  /-- `tuple(getattr(records[d.name], d.primaryKey.name) for d in implied)`. -/
  impliedKeys (records : List (String × Option DimensionRecord)) :
      List String → Except DataIdError (List DataIdValue)
    | [] => .ok []
    | n :: rest =>
      match alookup records n with
      | none => .error (.keyError n)
      | some none => .error (.attributeError n)
      | some (some r) =>
        match impliedKeys records rest with
        | .error e => .error e
        | .ok vs => .ok (r.key :: vs)
  /-- `_ExpandedTupleDataCoordinate(graph, values, records)`, including the
  `__init__` assertion that the value tuple is full. -/
  mkExpanded (g : DimensionGraph) (vals : List DataIdValue)
      (records : List (String × Option DimensionRecord)) :
      Except DataIdError DataCoordinate :=
    if vals.length = g.dimensionNames.length then
      .ok (.expandedTuple g vals records)
    else
      .error .assertionError

end DataCoordinate

/-- `tuple(d[name] for name in names)` on the merged dictionary of
`standardize`, propagating the `KeyError` of the first missing name. -/
def lookupAll (d : List (String × DataIdValue)) :
    List String → Except DataIdError (List DataIdValue)
  | [] => .ok []
  | n :: rest =>
    match alookup d n with
    | none => .error (.keyError n)
    | some v =>
      match lookupAll d rest with
      | .error e => .error e
      | .ok vs => .ok (v :: vs)

namespace DataCoordinate

/-- The tail of `standardize` once the merged dictionary `d` and the target
graph are known: short-circuit to `makeEmpty` for an empty graph, build a
full tuple when the merged keys cover all dimensions, and otherwise a
required-only tuple, raising `KeyError` naming the first required dimension
without a value. -/
def standardizeWithGraph (d : List (String × DataIdValue))
    (graph : DimensionGraph) : Except DataIdError DataCoordinate :=
  if graph.dimensionNames.isEmpty then
    .ok (makeEmpty graph.universe)
  else if graph.dimensionNames.all (fun n => (alookup d n).isSome) then
    match lookupAll d graph.dimensionNames with
    | .error e => .error e
    | .ok vals => .ok (.basic graph vals)
  else
    match lookupAll d graph.required with
    | .error e => .error e
    | .ok vals => .ok (.basic graph vals)

/-- The tail of `standardize` after the merged dictionary `d` is built:
resolve the target graph, raising `TypeError` when neither a graph nor a
universe is available, and inferring the graph from the merged keys
otherwise. -/
def standardizeFinish (d : List (String × DataIdValue))
    (graph? : Option DimensionGraph) (universe? : Option DimensionUniverse) :
    Except DataIdError DataCoordinate :=
  match graph? with
  | some g => standardizeWithGraph d g
  | none =>
    match universe? with
    | some u => standardizeWithGraph d (u.inferGraph (d.map (·.1)))
    | none => .error (.typeError "universe must be provided if graph is not.")

/-- The input accepted by the `mapping` parameter of `standardize`: an
existing `DataCoordinate`, or an informal name-keyed mapping (a
`NamedKeyMapping` is converted with `byName`, so both mapping cases merge the
same name-keyed pairs). -/
abbrev StdMapping : Type := Sum DataCoordinate (List (String × DataIdValue))

/-- `DataCoordinate.standardize`.  The coordinate branch can return the input
unchanged (no graph, no overrides), short-circuit to `subset` when the
overrides are disjoint from the target graph's dimensions, and otherwise
merges the coordinate's required (and, when full, implied) values; the
`assert universe is None or universe == mapping.universe` is modelled by
comparing universe versions (universes are version-keyed singletons).
Keyword overrides win over the mapping. -/
def standardize (mapping : Option StdMapping) (graph? : Option DimensionGraph)
    (universe? : Option DimensionUniverse)
    (kwargs : List (String × DataIdValue)) : Except DataIdError DataCoordinate :=
  match mapping with
  | some (.inl c) =>
    match graph? with
    | none => if kwargs.isEmpty then .ok c else continueCoord c graph? universe? kwargs
    | some graph =>
      if kwargs.all (fun p => p.1 ∉ graph.dimensionNames) then c.subset graph
      else continueCoord c graph? universe? kwargs
  | some (.inr m) =>
    standardizeFinish (dictUpdate (dictUpdate [] m) kwargs) graph? universe?
  | none => standardizeFinish (dictUpdate [] kwargs) graph? universe?
where
  /-- The fall-through of the coordinate branch: check the universe
  assertion, merge the coordinate's required (and, when full, implied)
  values with the overrides, and continue with the coordinate's universe. -/
  continueCoord (c : DataCoordinate) (graph? : Option DimensionGraph)
      (universe? : Option DimensionUniverse)
      (kwargs : List (String × DataIdValue)) : Except DataIdError DataCoordinate :=
    if universeMatches universe? c then
      match c.getPairs c.graph.required with
      | .error e => .error e
      | .ok reqPairs =>
        match (if c.hasFull then c.getPairs c.graph.implied else .ok []) with
        | .error e => .error e
        | .ok implPairs =>
          standardizeFinish
            (dictUpdate (dictUpdate (dictUpdate [] reqPairs) implPairs) kwargs)
            graph? (some c.graph.universe)
    else .error .assertionError
  /-- `assert universe is None or universe == mapping.universe`, with
  universe identity decided by version (universes are version-keyed
  singletons). -/
  universeMatches (universe? : Option DimensionUniverse) (c : DataCoordinate) : Bool :=
    match universe? with
    | some u => u.version == c.graph.universeVersion
    | none => true

/-- `DataCoordinate.__eq__` for two true `DataCoordinate` operands: the
graphs must be equal and the values of every required dimension of the graph
must match.  Implied dimensions are not consulted. -/
def dcEq (a b : DataCoordinate) : Bool :=
  decide (a.graph = b.graph) && a.graph.required.all (fun n => a.getItem? n == b.getItem? n)

/-- `DataCoordinate.__hash__`:
`hash((self.graph,) + tuple(self[d.name] for d in self.graph.required))`,
modelled with Lean's structural hash of the same tuple. -/
def dcHash (c : DataCoordinate) : UInt64 :=
  hash (c.graph, c.graph.required.map (fun n => c.getItem? n))

/-- The `full` property: asserts `hasFull()` and returns a view keyed by all
dimensions of the graph, delegating item access to the coordinate
(`_DataCoordinateFullView`).  The view is modelled extensionally as its list
of key-value pairs. -/
def full (c : DataCoordinate) :
    Except DataIdError (List (String × Option DataIdValue)) :=
  if c.hasFull then .ok (c.graph.dimensionNames.map (fun n => (n, c.getItem? n)))
  else .error .assertionError

/-- `_record` of both implementations: `assert False` for the basic one, a
lookup in the records mapping for the expanded one (`KeyError` when the
element is not covered). -/
def recordFor (c : DataCoordinate) (name : String) :
    Except DataIdError (Option DimensionRecord) :=
  match c with
  | .basic _ _ => .error .assertionError
  | .expandedTuple _ _ recs =>
    match alookup recs name with
    | some r => .ok r
    | none => .error (.keyError name)

/-- Modelled from the spec: the element set of a graph, used only as the key
set of the `records` view.  Join elements beyond the dimensions themselves
live in the missing `_graph.py`; none of the verified claims depend on
them. -/
def elementNames (g : DimensionGraph) : List String :=
  g.dimensionNames

/-- The `records` property: asserts `hasRecords()` and returns a view keyed
by the graph's elements, delegating to `_record`
(`_DataCoordinateRecordsView`), modelled extensionally. -/
def recordsView (c : DataCoordinate) :
    Except DataIdError (List (String × Except DataIdError (Option DimensionRecord))) :=
  if c.hasRecords then .ok ((elementNames c.graph).map (fun n => (n, c.recordFor n)))
  else .error .assertionError

end DataCoordinate

/-- The result of the `region` property: `None`, a region, or the
`NotImplemented` placeholder that `_intersectRegions` returns for multiple
regions. -/
inductive RegionResult where
  | noRegion
  | region (r : Region)
  | notImplemented
deriving DecidableEq, Repr

/-- `_intersectRegions`: no regions yields `None`, one region is returned
as-is, and several regions yield `NotImplemented` (a documented
placeholder). -/
def intersectRegions : List Region → RegionResult
  | [] => .noRegion
  | [r] => .region r
  | _ :: _ :: _ => .notImplemented

namespace DataCoordinate

/-- The loop of the `region` property over the graph's spatial families:
fetch the record of the chosen element of each family; if the record or its
region is missing, return `None` immediately; otherwise collect the region
and finish with `_intersectRegions`. -/
def regionLoop (c : DataCoordinate) :
    List TopoFamily → List Region → Except DataIdError RegionResult
  | [], regions => .ok (intersectRegions regions)
  | fam :: rest, regions =>
    match c.recordFor fam.chooseName with
    | .error e => .error e
    | .ok none => .ok .noRegion
    | .ok (some r) =>
      match r.region with
      | none => .ok .noRegion
      | some reg => c.regionLoop rest (regions ++ [reg])

/-- The `region` property: asserts `hasRecords()` and runs the family
loop. -/
def region (c : DataCoordinate) : Except DataIdError RegionResult :=
  if c.hasRecords then c.regionLoop c.graph.spatial [] else .error .assertionError

end DataCoordinate

/-- Modelled from the spec: intersection of two half-open timespans — the
later begin and the earlier end, with `none` as the unbounded bound. -/
def TimespanV.inter (a b : TimespanV) : TimespanV :=
  ⟨match a.tbegin, b.tbegin with
    | none, y => y
    | x, none => x
    | some x, some y => some (max x y),
   match a.tend, b.tend with
    | none, y => y
    | x, none => x
    | some x, some y => some (min x y)⟩

/-- Modelled from the spec: `Timespan.intersection(*timespans)` — `None` for
no arguments, otherwise the fold of pairwise intersection
(`timespan.py` is not among the sources). -/
def timespanIntersection : List TimespanV → Option TimespanV
  | [] => none
  | t :: rest => some (rest.foldl TimespanV.inter t)

namespace DataCoordinate

/-- The loop of the `timespan` property over the graph's temporal families,
mirroring the `region` loop with `Timespan.intersection` at the end. -/
def timespanLoop (c : DataCoordinate) :
    List TopoFamily → List TimespanV → Except DataIdError (Option TimespanV)
  | [], timespans => .ok (timespanIntersection timespans)
  | fam :: rest, timespans =>
    match c.recordFor fam.chooseName with
    | .error e => .error e
    | .ok none => .ok none
    | .ok (some r) =>
      match r.timespan with
      | none => .ok none
      | some ts => c.timespanLoop rest (timespans ++ [ts])

/-- The `timespan` property: asserts `hasRecords()` and runs the family
loop. -/
def timespan (c : DataCoordinate) : Except DataIdError (Option TimespanV) :=
  if c.hasRecords then c.timespanLoop c.graph.temporal [] else .error .assertionError

/-- `pack`: asserts `hasRecords()`, then looks the packer factory up by name
in the universe (`makePacker`; an unknown name is a lookup failure) and
applies it, returning the `(packed, maxBits)` pair. -/
def pack (c : DataCoordinate) (u : DimensionUniverse) (name : String) :
    Except DataIdError (Nat × Nat) :=
  if c.hasRecords then
    match alookup u.packers name with
    | some f => .ok (f c)
    | none => .error (.keyError name)
  else .error .assertionError

end DataCoordinate

/-- `DimensionConfig` (`_config.py`): only the version and the dimension
definitions matter to the modelled paths. -/
structure DimensionConfig where
  version : Nat
  dimensionDefs : List DimensionDef

/-- `DimensionConfig(config)`: wrap an existing config or load the default
configuration when none is given (the YAML loading itself is an excluded
collaborator). -/
def dimensionConfigOf (config : Option DimensionConfig) : DimensionConfig :=
  config.getD ⟨0, []⟩

/-- `DimensionConstructionBuilder`: the builder state handed to
`DimensionUniverse.__new__`, already carrying a version, the dimension
definitions and the packer factories. -/
structure DimensionConstructionBuilder where
  version : Nat
  dims : List DimensionDef
  packers : List (String × (DataCoordinate → Nat × Nat))

/-- `config.makeBuilder()`. -/
def DimensionConfig.makeBuilder (cfg : DimensionConfig) :
    DimensionConstructionBuilder :=
  ⟨cfg.version, cfg.dimensionDefs, []⟩

/-- `DimensionUniverse.__new__` with the process-wide `_instances` cache made
an explicit argument: resolve a version (explicit, from the builder, or from
the parsed config), return the cached instance unchanged on a hit, and
otherwise build a new universe from the builder (building one from the config
if necessary) and insert it into the cache under the resolved version. -/
def DimensionUniverse.new (cache : List (Nat × DimensionUniverse))
    (config : Option DimensionConfig) (version? : Option Nat)
    (builder? : Option DimensionConstructionBuilder) :
    DimensionUniverse × List (Nat × DimensionUniverse) :=
  let version :=
    match version? with
    | some v => v
    | none =>
      match builder? with
      | some b => b.version
      | none => (dimensionConfigOf config).version
  match alookup cache version with
  | some u => (u, cache)
  | none =>
    let builder :=
      match builder? with
      | some b => b
      | none => (dimensionConfigOf config).makeBuilder
    let u : DimensionUniverse := ⟨version, builder.dims, builder.packers⟩
    (u, (version, u) :: cache)

/-- `pickle.UnpicklingError` raised by `DimensionUniverse._unpickle` for a
version with no cached instance. -/
structure UnpicklingError where
  version : Nat
deriving DecidableEq, Repr

/-- `DimensionUniverse._unpickle`: restore a serialized universe reference
purely by cache lookup; an unknown version is a hard failure, never a
reconstruction. -/
def DimensionUniverse.unpickle (cache : List (Nat × DimensionUniverse))
    (version : Nat) : Except UnpicklingError DimensionUniverse :=
  match alookup cache version with
  | some u => .ok u
  | none => .error ⟨version⟩

/-- `CollectionType` (`registry/_collectionType.py`): the four collection
variants. -/
inductive CollectionType where
  | run
  | tagged
  | calibration
  | chained
deriving DecidableEq, Repr

/-- A collection registration record (`CollectionRecord`): key, name and
type. -/
structure CollectionRecord where
  key : Nat
  name : String
  type : CollectionType
deriving DecidableEq, Repr

/-- A resolved dataset reference as consumed by `associate` /
`disassociate`: its checked integer id and the name-keyed items of its data
ID. -/
structure DatasetRef where
  id : Nat
  dataId : List (String × DataIdValue)
deriving DecidableEq, Repr

/-- A row of the by-dimensions tags table: the collection foreign key, the
dataset type id, the dataset id and the data-ID columns. -/
structure TagRow where
  collectionKey : Nat
  datasetTypeId : Nat
  datasetId : Nat
  dataId : List (String × DataIdValue)
deriving DecidableEq, Repr

/-- The backing database state visible to the modelled storage operations:
the rows of one tags table. -/
structure DBState where
  tags : List TagRow
deriving DecidableEq, Repr

/-- The logical primary key of a tags row (dataset type, collection and data
ID), on which `Database.replace` upserts. -/
def tagRowKey (r : TagRow) : Nat × Nat × List (String × DataIdValue) :=
  (r.collectionKey, r.datasetTypeId, r.dataId)

/-- `Database.replace` on the tags table: an upsert that overwrites rows with
the same primary key. -/
def replaceRows (table new : List TagRow) : List TagRow :=
  table.filter (fun r => new.all (fun n => tagRowKey n ≠ tagRowKey r)) ++ new

/-- `Database.delete` on the tags table by `(dataset_id, collection)` key
pairs. -/
def deleteRows (table : List TagRow) (keys : List (Nat × Nat)) : List TagRow :=
  table.filter (fun r => (r.datasetId, r.collectionKey) ∉ keys)

/-- The errors raised by the modelled dataset record storage operations. -/
inductive StorageError where
  | typeMismatch (collection : String) (t : CollectionType)
deriving DecidableEq, Repr

/-- `ByDimensionsDatasetRecordStorage.associate`: raise a type-mismatch error
for any collection that is not TAGGED, before touching the database;
otherwise upsert one tags row per dataset. -/
def associate (collection : CollectionRecord) (datasetTypeId : Nat)
    (datasets : List DatasetRef) (db : DBState) :
    Except StorageError Unit × DBState :=
  if collection.type ≠ CollectionType.tagged then
    (.error (.typeMismatch collection.name collection.type), db)
  else
    let rows := datasets.map (fun ds => TagRow.mk collection.key datasetTypeId ds.id ds.dataId)
    (.ok (), ⟨replaceRows db.tags rows⟩)

/-- `ByDimensionsDatasetRecordStorage.disassociate`: raise a type-mismatch
error for any collection that is not TAGGED, before touching the database;
otherwise delete the matching `(dataset_id, collection)` rows. -/
def disassociate (collection : CollectionRecord) (datasets : List DatasetRef)
    (db : DBState) : Except StorageError Unit × DBState :=
  if collection.type ≠ CollectionType.tagged then
    (.error (.typeMismatch collection.name collection.type), db)
  else
    (.ok (), ⟨deleteRows db.tags (datasets.map (fun ds => (ds.id, collection.key)))⟩)

/-- The kinds of record the YAML import backend dispatches on. -/
inductive ImportRecordKind where
  | dimension
  | collection
  | run
  | datasetType
  | dataset
  | associations
deriving DecidableEq, Repr

/-- `ValueError` raised by `YamlRepoImportBackend.__init__` for a record whose
kind tag matches no branch. -/
inductive ImportError where
  | unexpectedType (t : String)
deriving DecidableEq, Repr

/-- The kind-tag dispatch of `YamlRepoImportBackend.__init__` over
`data["type"]` (payload handling of each branch is abstracted away; payload
errors are out of scope here).  Note the extra legacy branch for `"run"`
records ("Also support old form of saving a run with no extra info"). -/
def classifyImportRecord (t : String) : Except ImportError ImportRecordKind :=
  if t = "dimension" then .ok .dimension
  else if t = "collection" then .ok .collection
  else if t = "run" then .ok .run
  else if t = "dataset_type" then .ok .datasetType
  else if t = "dataset" then .ok .dataset
  else if t = "associations" then .ok .associations
  else .error (.unexpectedType t)

/-- The capability ladder of a data coordinate, as stated by the spec: values
for all required dimensions are present; `hasFull` implies that values for
all (required and implied) dimensions are present; and `hasRecords` implies
`hasFull`. -/
def CapabilityLadder (c : DataCoordinate) : Prop :=
  (∀ n ∈ c.graph.required, (c.getItem? n).isSome = true) ∧
  (c.hasFull = true → ∀ n ∈ c.graph.dimensionNames, (c.getItem? n).isSome = true) ∧
  (c.hasRecords = true → c.hasFull = true)

instance (c : DataCoordinate) : Decidable (CapabilityLadder c) := by
  unfold CapabilityLadder
  infer_instance

/-- A ladder hypothesis for the optional `mapping` argument of `standardize`:
when the mapping is an existing coordinate it is assumed to satisfy the
ladder itself (the short-circuit paths of `standardize` return it or its
subset unchecked). -/
def StdMappingLadder : Option DataCoordinate.StdMapping → Prop
  | some (.inl c) => CapabilityLadder c
  | _ => True

/-- The region contributed by one spatial family of a coordinate's graph:
the `region` attribute of the record of the family's chosen element, and
`none` when the record or its region is missing. -/
def DataCoordinate.famRegion (c : DataCoordinate) (fam : TopoFamily) : Option Region :=
  match c.recordFor fam.chooseName with
  | .ok (some r) => r.region
  | _ => none

/-- A concrete expanded coordinate on a graph with two spatial families,
used to exercise the `region` accessor: the record of family "a" supplies
region 7, the record of family "b" supplies no region. -/
def twoFamilyCoord : DataCoordinate :=
  .expandedTuple ⟨0, [], ["a", "b"], [], [⟨"a"⟩, ⟨"b"⟩], []⟩ [.int 1, .int 2]
    [("a", some ⟨.int 1, some ⟨7⟩, none⟩), ("b", some ⟨.int 2, none, none⟩)]

/-! ### Lemmas about index and dictionary lookup -/

theorem idxOf?_getElem {key : String} :
    ∀ {l : List String} {i : Nat}, idxOf? key l = some i → l[i]? = some key := by
  intro l
  induction l with
  | nil => intro i h; simp [idxOf?] at h
  | cons n rest ih =>
    intro i h
    simp only [idxOf?] at h
    by_cases hn : n = key
    · rw [if_pos hn] at h
      injection h with h
      subst h
      simp [hn]
    · rw [if_neg hn] at h
      cases hrec : idxOf? key rest with
      | none => rw [hrec] at h; simp at h
      | some j =>
        rw [hrec] at h
        simp only [Option.map_some'] at h
        injection h with h
        subst h
        simpa using ih hrec

theorem idxOf?_lt {key : String} {l : List String} {i : Nat}
    (h : idxOf? key l = some i) : i < l.length :=
  (List.getElem?_eq_some.mp (idxOf?_getElem h)).1

theorem idxOf?_append_left {key : String} (l2 : List String) :
    ∀ {l1 : List String}, key ∈ l1 →
      ∃ i, idxOf? key (l1 ++ l2) = some i ∧ i < l1.length := by
  intro l1
  induction l1 with
  | nil => intro h; cases h
  | cons n rest ih =>
    intro h
    by_cases hn : n = key
    · exact ⟨0, by simp [idxOf?, hn], by simp⟩
    · have hk : key ∈ rest := by
        rcases List.mem_cons.mp h with h' | h'
        · exact absurd h'.symm hn
        · exact h'
      obtain ⟨i, hi, hlt⟩ := ih hk
      refine ⟨i + 1, ?_, by simpa using Nat.succ_lt_succ hlt⟩
      simp [idxOf?, hn, hi]

theorem idxOf?_mem {key : String} {l : List String} (h : key ∈ l) :
    ∃ i, idxOf? key l = some i ∧ i < l.length := by
  have h' := idxOf?_append_left ([] : List String) h
  simpa using h'

theorem alookup_filter_ne {α : Type} {k n : String} (hkn : k ≠ n) :
    ∀ (d : List (String × α)),
      alookup (d.filter (fun p => p.1 ≠ k)) n = alookup d n := by
  intro d
  induction d with
  | nil => simp [alookup]
  | cons p rest ih =>
    rw [List.filter_cons]
    by_cases hp : p.1 = k
    · have hpn : p.1 ≠ n := fun h => hkn (hp ▸ h)
      rw [if_neg (by simp [hp])]
      rw [ih]
      simp [alookup, hpn]
    · rw [if_pos (by simp [hp])]
      simp only [ne_eq, decide_not] at ih ⊢
      by_cases hpn : p.1 = n
      · simp [alookup, hpn]
      · simp [alookup, hpn, ih]

theorem dictInsert_lookup {α : Type} (d : List (String × α)) (k : String) (v : α)
    (n : String) :
    alookup (dictInsert d k v) n = if k = n then some v else alookup d n := by
  unfold dictInsert
  simp only [alookup]
  by_cases h : k = n
  · rw [if_pos h, if_pos h]
  · rw [if_neg h, if_neg h, alookup_filter_ne h]

/-- Lookups in a dictionary built by repeated `update` agree with any
function `f` that all inserted pairs and the initial dictionary agree
with. -/
theorem dictUpdate_lookup_sub {α : Type} (f : String → Option α) :
    ∀ (kvs d : List (String × α)),
      (∀ p ∈ kvs, f p.1 = some p.2) →
      (∀ n v, alookup d n = some v → f n = some v) →
      ∀ n v, alookup (dictUpdate d kvs) n = some v → f n = some v := by
  intro kvs
  induction kvs with
  | nil => intro d _ hd n v h; exact hd n v h
  | cons p rest ih =>
    intro d hkvs hd n v h
    refine ih (dictInsert d p.1 p.2) (fun q hq => hkvs q (List.mem_cons_of_mem _ hq)) ?_ n v h
    intro m w h'
    rw [dictInsert_lookup] at h'
    by_cases hpm : p.1 = m
    · rw [if_pos hpm] at h'
      injection h' with h'
      subst h'
      exact hpm ▸ hkvs p (List.mem_cons_self p rest)
    · rw [if_neg hpm] at h'
      exact hd m w h'

/-- A key inserted by `update` (or already present) is present afterwards. -/
theorem dictUpdate_isSome {α : Type} :
    ∀ (kvs d : List (String × α)) (n : String),
      (n ∈ kvs.map (·.1) ∨ (alookup d n).isSome = true) →
      (alookup (dictUpdate d kvs) n).isSome = true := by
  intro kvs
  induction kvs with
  | nil =>
    intro d n h
    rcases h with h | h
    · simp at h
    · exact h
  | cons p rest ih =>
    intro d n h
    refine ih (dictInsert d p.1 p.2) n ?_
    by_cases hpn : p.1 = n
    · right; rw [dictInsert_lookup, if_pos hpn]; rfl
    · rcases h with h | h
      · rcases List.mem_map.mp h with ⟨q, hq, hqn⟩
        rcases List.mem_cons.mp hq with h' | h'
        · exact absurd (h' ▸ hqn) hpn
        · exact Or.inl (List.mem_map.mpr ⟨q, h', hqn⟩)
      · right; rw [dictInsert_lookup, if_neg hpn]; exact h

/-! ### Lemmas about the value-gathering loops -/

theorem lookupAll_length {d : List (String × DataIdValue)} :
    ∀ {names : List String} {vs : List DataIdValue},
      lookupAll d names = .ok vs → vs.length = names.length := by
  intro names
  induction names with
  | nil =>
    intro vs h
    simp only [lookupAll] at h
    injection h with h
    subst h
    rfl
  | cons n rest ih =>
    intro vs h
    simp only [lookupAll] at h
    cases ha : alookup d n with
    | none => rw [ha] at h; exact absurd h (by simp)
    | some v =>
      rw [ha] at h
      cases hr : lookupAll d rest with
      | error e => rw [hr] at h; exact absurd h (by simp)
      | ok vs' =>
        rw [hr] at h
        injection h with h
        subst h
        simp [ih hr]

theorem lookupAll_get {d : List (String × DataIdValue)} :
    ∀ {names : List String} {vs : List DataIdValue},
      lookupAll d names = .ok vs →
      ∀ {i : Nat} {n : String}, names[i]? = some n → vs[i]? = alookup d n := by
  intro names
  induction names with
  | nil => intro vs _ i n hn; simp at hn
  | cons m rest ih =>
    intro vs h i n hn
    simp only [lookupAll] at h
    cases ha : alookup d m with
    | none => rw [ha] at h; exact absurd h (by simp)
    | some v =>
      rw [ha] at h
      cases hr : lookupAll d rest with
      | error e => rw [hr] at h; exact absurd h (by simp)
      | ok vs' =>
        rw [hr] at h
        injection h with h
        subst h
        cases i with
        | zero =>
          simp only [List.getElem?_cons_zero] at hn ⊢
          injection hn with hn
          subst hn
          exact ha.symm
        | succ j =>
          simp only [List.getElem?_cons_succ] at hn ⊢
          exact ih hr hn

theorem lookupAll_error_of_missing {d : List (String × DataIdValue)} :
    ∀ {names : List String}, (∃ n ∈ names, alookup d n = none) →
      ∃ n, n ∈ names ∧ alookup d n = none ∧ lookupAll d names = .error (.keyError n) := by
  intro names
  induction names with
  | nil => intro h; simp at h
  | cons m rest ih =>
    intro h
    cases ha : alookup d m with
    | none =>
      exact ⟨m, List.mem_cons_self m rest, ha, by simp [lookupAll, ha]⟩
    | some v =>
      obtain ⟨n, hn, hnone⟩ := h
      have hnr : n ∈ rest := by
        rcases List.mem_cons.mp hn with h' | h'
        · rw [h'] at hnone; rw [hnone] at ha; cases ha
        · exact h'
      obtain ⟨n', hn', hnone', herr⟩ := ih ⟨n, hnr, hnone⟩
      exact ⟨n', List.mem_cons_of_mem _ hn', hnone', by simp [lookupAll, ha, herr]⟩

theorem getValues_length {c : DataCoordinate} :
    ∀ {names : List String} {vs : List DataIdValue},
      c.getValues names = .ok vs → vs.length = names.length := by
  intro names
  induction names with
  | nil =>
    intro vs h
    simp only [DataCoordinate.getValues] at h
    injection h with h
    subst h
    rfl
  | cons n rest ih =>
    intro vs h
    simp only [DataCoordinate.getValues] at h
    cases ha : c.getItem? n with
    | none => rw [ha] at h; exact absurd h (by simp)
    | some v =>
      rw [ha] at h
      cases hr : c.getValues rest with
      | error e => rw [hr] at h; exact absurd h (by simp)
      | ok vs' =>
        rw [hr] at h
        injection h with h
        subst h
        simp [ih hr]

theorem getValues_get {c : DataCoordinate} :
    ∀ {names : List String} {vs : List DataIdValue},
      c.getValues names = .ok vs →
      ∀ {i : Nat} {n : String}, names[i]? = some n → vs[i]? = c.getItem? n := by
  intro names
  induction names with
  | nil => intro vs _ i n hn; simp at hn
  | cons m rest ih =>
    intro vs h i n hn
    simp only [DataCoordinate.getValues] at h
    cases ha : c.getItem? m with
    | none => rw [ha] at h; exact absurd h (by simp)
    | some v =>
      rw [ha] at h
      cases hr : c.getValues rest with
      | error e => rw [hr] at h; exact absurd h (by simp)
      | ok vs' =>
        rw [hr] at h
        injection h with h
        subst h
        cases i with
        | zero =>
          simp only [List.getElem?_cons_zero] at hn ⊢
          injection hn with hn
          subst hn
          exact ha.symm
        | succ j =>
          simp only [List.getElem?_cons_succ] at hn ⊢
          exact ih hr hn

theorem getPairs_sound {c : DataCoordinate} :
    ∀ {names : List String} {ps : List (String × DataIdValue)},
      c.getPairs names = .ok ps →
      (∀ p ∈ ps, c.getItem? p.1 = some p.2) ∧ (∀ n ∈ names, n ∈ ps.map (·.1)) := by
  intro names
  induction names with
  | nil =>
    intro ps h
    simp only [DataCoordinate.getPairs] at h
    injection h with h
    subst h
    exact ⟨by simp, by simp⟩
  | cons m rest ih =>
    intro ps h
    simp only [DataCoordinate.getPairs] at h
    cases ha : c.getItem? m with
    | none => rw [ha] at h; exact absurd h (by simp)
    | some v =>
      rw [ha] at h
      cases hr : c.getPairs rest with
      | error e => rw [hr] at h; exact absurd h (by simp)
      | ok ps' =>
        rw [hr] at h
        injection h with h
        subst h
        obtain ⟨ih1, ih2⟩ := ih hr
        constructor
        · intro p hp
          rcases List.mem_cons.mp hp with h' | h'
          · subst h'; exact ha
          · exact ih1 p h'
        · intro n hn
          rcases List.mem_cons.mp hn with h' | h'
          · subst h'; simp
          · simpa using Or.inr (ih2 n h')

/-! ### The capability ladder -/

@[simp] theorem graph_basic (g : DimensionGraph) (vs : List DataIdValue) :
    (DataCoordinate.basic g vs).graph = g := rfl

@[simp] theorem graph_expandedTuple (g : DimensionGraph) (vs : List DataIdValue)
    (recs : List (String × Option DimensionRecord)) :
    (DataCoordinate.expandedTuple g vs recs).graph = g := rfl

@[simp] theorem values_basic (g : DimensionGraph) (vs : List DataIdValue) :
    (DataCoordinate.basic g vs).values = vs := rfl

@[simp] theorem values_expandedTuple (g : DimensionGraph) (vs : List DataIdValue)
    (recs : List (String × Option DimensionRecord)) :
    (DataCoordinate.expandedTuple g vs recs).values = vs := rfl

@[simp] theorem hasFull_basic (g : DimensionGraph) (vs : List DataIdValue) :
    (DataCoordinate.basic g vs).hasFull = (vs.length == g.dimensionNames.length) := rfl

@[simp] theorem hasFull_expandedTuple (g : DimensionGraph) (vs : List DataIdValue)
    (recs : List (String × Option DimensionRecord)) :
    (DataCoordinate.expandedTuple g vs recs).hasFull = true := rfl

@[simp] theorem hasRecords_basic (g : DimensionGraph) (vs : List DataIdValue) :
    (DataCoordinate.basic g vs).hasRecords = false := rfl

@[simp] theorem hasRecords_expandedTuple (g : DimensionGraph) (vs : List DataIdValue)
    (recs : List (String × Option DimensionRecord)) :
    (DataCoordinate.expandedTuple g vs recs).hasRecords = true := rfl

theorem getItem?_isSome {c : DataCoordinate} {n : String} {i : Nat}
    (hi : idxOf? n c.graph.dimensionNames = some i) (hlt : i < c.values.length) :
    (c.getItem? n).isSome = true := by
  unfold DataCoordinate.getItem?
  rw [hi]
  simp [List.getElem?_eq_getElem hlt]

/-- Any basic tuple coordinate whose value tuple covers at least the required
dimensions satisfies the capability ladder. -/
theorem ladder_basic {g : DimensionGraph} {vs : List DataIdValue}
    (h : g.required.length ≤ vs.length) :
    CapabilityLadder (.basic g vs) := by
  refine ⟨?_, ?_, ?_⟩
  · intro n hn
    obtain ⟨i, hi, hlt⟩ := idxOf?_append_left g.implied hn
    exact getItem?_isSome (c := .basic g vs) hi (by simpa using lt_of_lt_of_le hlt h)
  · intro hf n hn
    have hlen : vs.length = g.dimensionNames.length := by
      simpa using hf
    obtain ⟨i, hi, hlt⟩ := idxOf?_mem hn
    exact getItem?_isSome (c := .basic g vs) hi
      (by simp only [values_basic]; rw [hlen]; simpa using hlt)
  · intro h'
    simp at h'

/-- Any expanded tuple coordinate whose value tuple is full satisfies the
capability ladder. -/
theorem ladder_expandedTuple {g : DimensionGraph} {vs : List DataIdValue}
    {recs : List (String × Option DimensionRecord)}
    (h : vs.length = g.dimensionNames.length) :
    CapabilityLadder (.expandedTuple g vs recs) := by
  refine ⟨?_, ?_, ?_⟩
  · intro n hn
    obtain ⟨i, hi, hlt⟩ := idxOf?_append_left g.implied hn
    have : i < vs.length := by
      rw [h]
      calc i < g.required.length := hlt
        _ ≤ g.dimensionNames.length := by
          simp [DimensionGraph.dimensionNames]
    exact getItem?_isSome (c := .expandedTuple g vs recs) hi (by simpa using this)
  · intro _ n hn
    obtain ⟨i, hi, hlt⟩ := idxOf?_mem hn
    exact getItem?_isSome (c := .expandedTuple g vs recs) hi
      (by simp only [values_expandedTuple]; rw [h]; simpa using hlt)
  · intro _
    rfl

/-- `makeEmpty` satisfies the capability ladder (its graph has no
dimensions). -/
theorem ladder_makeEmpty (u : DimensionUniverse) :
    CapabilityLadder (DataCoordinate.makeEmpty u) := by
  refine ladder_expandedTuple ?_
  rfl

theorem standardizeWithGraph_ladder {d : List (String × DataIdValue)}
    {g : DimensionGraph} {c' : DataCoordinate}
    (h : DataCoordinate.standardizeWithGraph d g = .ok c') :
    CapabilityLadder c' := by
  unfold DataCoordinate.standardizeWithGraph at h
  split at h
  · injection h with h
    subst h
    exact ladder_makeEmpty _
  · split at h
    · cases heq : lookupAll d g.dimensionNames with
      | error e => rw [heq] at h; exact absurd h (by simp)
      | ok vals =>
        rw [heq] at h
        injection h with h
        subst h
        refine ladder_basic ?_
        rw [lookupAll_length heq]
        simp [DimensionGraph.dimensionNames]
    · cases heq : lookupAll d g.required with
      | error e => rw [heq] at h; exact absurd h (by simp)
      | ok vals =>
        rw [heq] at h
        injection h with h
        subst h
        exact ladder_basic (le_of_eq (lookupAll_length heq).symm)

theorem standardizeFinish_ladder {d : List (String × DataIdValue)}
    {g? : Option DimensionGraph} {u? : Option DimensionUniverse}
    {c' : DataCoordinate}
    (h : DataCoordinate.standardizeFinish d g? u? = .ok c') :
    CapabilityLadder c' := by
  unfold DataCoordinate.standardizeFinish at h
  cases g? with
  | some g => exact standardizeWithGraph_ladder h
  | none =>
    cases u? with
    | some u => exact standardizeWithGraph_ladder h
    | none => exact absurd h (by simp)

theorem subset_ladder {c : DataCoordinate} {t : DimensionGraph}
    {c' : DataCoordinate} (hc : CapabilityLadder c)
    (h : c.subset t = .ok c') : CapabilityLadder c' := by
  cases c with
  | basic g vs =>
    simp only [DataCoordinate.subset] at h
    split at h
    · injection h with h
      subst h
      exact hc
    · split at h
      · cases heq : (DataCoordinate.basic g vs).getValues t.dimensionNames with
        | error e => rw [heq] at h; exact absurd h (by simp)
        | ok vals =>
          rw [heq] at h
          injection h with h
          subst h
          refine ladder_basic ?_
          rw [getValues_length heq]
          simp [DimensionGraph.dimensionNames]
      · cases heq : (DataCoordinate.basic g vs).getValues t.required with
        | error e => rw [heq] at h; exact absurd h (by simp)
        | ok vals =>
          rw [heq] at h
          injection h with h
          subst h
          exact ladder_basic (le_of_eq (getValues_length heq).symm)
  | expandedTuple g vs recs =>
    simp only [DataCoordinate.subset] at h
    split at h
    · injection h with h
      subst h
      exact hc
    · cases heq : (DataCoordinate.expandedTuple g vs recs).getValues t.dimensionNames with
      | error e => rw [heq] at h; exact absurd h (by simp)
      | ok vals =>
        rw [heq] at h
        injection h with h
        subst h
        exact ladder_expandedTuple (getValues_length heq)

theorem expanded_ladder {c : DataCoordinate}
    {records : List (String × Option DimensionRecord)} {c' : DataCoordinate}
    (hc : CapabilityLadder c) (h : c.expanded records = .ok c') :
    CapabilityLadder c' := by
  cases c with
  | expandedTuple g vs recs =>
    simp only [DataCoordinate.expanded] at h
    injection h with h
    subst h
    exact hc
  | basic g vs =>
    simp only [DataCoordinate.expanded] at h
    have mk : ∀ vals, DataCoordinate.expanded.mkExpanded g vals records = .ok c' →
        CapabilityLadder c' := by
      intro vals hmk
      unfold DataCoordinate.expanded.mkExpanded at hmk
      split at hmk
      · injection hmk with hmk
        subst hmk
        exact ladder_expandedTuple (by assumption)
      · exact absurd hmk (by simp)
    split at h
    · exact mk vs h
    · split at h
      · exact absurd h (by simp)
      · exact mk _ h

theorem continueCoord_ladder {c : DataCoordinate} {g? : Option DimensionGraph}
    {u? : Option DimensionUniverse} {kw : List (String × DataIdValue)}
    {c' : DataCoordinate}
    (h : DataCoordinate.standardize.continueCoord c g? u? kw = .ok c') :
    CapabilityLadder c' := by
  unfold DataCoordinate.standardize.continueCoord at h
  split at h
  · cases h1 : c.getPairs c.graph.required with
    | error e => rw [h1] at h; exact absurd h (by simp)
    | ok reqPairs =>
      rw [h1] at h
      cases h2 : (if c.hasFull then c.getPairs c.graph.implied
          else Except.ok ([] : List (String × DataIdValue))) with
      | error e => rw [h2] at h; exact absurd h (by simp)
      | ok implPairs =>
        rw [h2] at h
        exact standardizeFinish_ladder h
  · exact absurd h (by simp)

/-! ### Claim theorems -/

/-- C1: every `DataCoordinate` produced by a public operation —
`standardize`, `makeEmpty`, `fromRequiredValues`, `fromFullValues`, `subset`
or `expanded` — satisfies the capability ladder: values for all required
dimensions of its graph are present; if `hasFull()` is true, values for all
implied dimensions are present as well; and `hasRecords()` implies
`hasFull()`.  For `standardize`, `subset` and `expanded`, a coordinate given
as input is assumed to satisfy the ladder (the short-circuit paths return it
unchecked). -/
theorem standardize_capability_ladder :
    (∀ (m : Option DataCoordinate.StdMapping) (g? : Option DimensionGraph)
        (u? : Option DimensionUniverse) (kw : List (String × DataIdValue))
        (c' : DataCoordinate), StdMappingLadder m →
        DataCoordinate.standardize m g? u? kw = .ok c' → CapabilityLadder c') ∧
    (∀ u : DimensionUniverse, CapabilityLadder (DataCoordinate.makeEmpty u)) ∧
    (∀ (g : DimensionGraph) (vs : List DataIdValue) (c' : DataCoordinate),
        DataCoordinate.fromRequiredValues g vs = .ok c' → CapabilityLadder c') ∧
    (∀ (g : DimensionGraph) (vs : List DataIdValue) (c' : DataCoordinate),
        DataCoordinate.fromFullValues g vs = .ok c' → CapabilityLadder c') ∧
    (∀ (c : DataCoordinate) (t : DimensionGraph) (c' : DataCoordinate),
        CapabilityLadder c → c.subset t = .ok c' → CapabilityLadder c') ∧
    (∀ (c : DataCoordinate) (r : List (String × Option DimensionRecord))
        (c' : DataCoordinate),
        CapabilityLadder c → c.expanded r = .ok c' → CapabilityLadder c') := by
  refine ⟨?_, ladder_makeEmpty, ?_, ?_, ?_, ?_⟩
  · intro m g? u? kw c' hm h
    cases m with
    | none =>
      simp only [DataCoordinate.standardize] at h
      exact standardizeFinish_ladder h
    | some mm =>
      cases mm with
      | inr d =>
        simp only [DataCoordinate.standardize] at h
        exact standardizeFinish_ladder h
      | inl c =>
        have hc : CapabilityLadder c := hm
        simp only [DataCoordinate.standardize] at h
        split at h
        · split at h
          · injection h with h
            subst h
            exact hc
          · exact continueCoord_ladder h
        · split at h
          · exact subset_ladder hc h
          · exact continueCoord_ladder h
  · intro g vs c' h
    unfold DataCoordinate.fromRequiredValues at h
    split at h
    · injection h with h
      subst h
      exact ladder_basic (le_of_eq (by assumption : vs.length = g.required.length).symm)
    · exact absurd h (by simp)
  · intro g vs c' h
    unfold DataCoordinate.fromFullValues at h
    split at h
    · injection h with h
      subst h
      refine ladder_basic ?_
      rw [(by assumption : vs.length = g.dimensionNames.length)]
      simp [DimensionGraph.dimensionNames]
    · exact absurd h (by simp)
  · intro c t c' hc h
    exact subset_ladder hc h
  · intro c r c' hc h
    exact expanded_ladder hc h

/-- Witness for C1: the ladder of a concrete coordinate built by
`standardize` from keyword arguments alone. -/
theorem standardize_capability_ladder_witness :
    CapabilityLadder (.basic ⟨0, [], ["a"], ["b"], [], []⟩ [.int 1]) :=
  standardize_capability_ladder.1 none (some ⟨0, [], ["a"], ["b"], [], []⟩) none
    [("a", .int 1)] (.basic ⟨0, [], ["a"], ["b"], [], []⟩ [.int 1]) trivial rfl

/-- C7: the capability-gated accessors fail loudly.  Accessing `full` when
`hasFull()` is false, or `records`, `region`, `timespan` or `pack()` when
`hasRecords()` is false, raises (the assertion error of the source, with
assertions enabled) instead of returning a value. -/
theorem gated_accessors_raise (c : DataCoordinate) (u : DimensionUniverse)
    (name : String) :
    (c.hasFull = false → c.full = .error .assertionError) ∧
    (c.hasRecords = false →
      c.recordsView = .error .assertionError ∧
      c.region = .error .assertionError ∧
      c.timespan = .error .assertionError ∧
      c.pack u name = .error .assertionError) := by
  constructor
  · intro h
    simp [DataCoordinate.full, h]
  · intro h
    refine ⟨?_, ?_, ?_, ?_⟩
    · simp [DataCoordinate.recordsView, h]
    · simp [DataCoordinate.region, h]
    · simp [DataCoordinate.timespan, h]
    · simp [DataCoordinate.pack, h]

/-- Witness for C7: all five gated accessors raise on a concrete
required-only coordinate. -/
theorem gated_accessors_raise_witness :
    (DataCoordinate.basic ⟨0, [], ["a"], ["b"], [], []⟩ [.int 1]).full
        = .error .assertionError ∧
    (DataCoordinate.basic ⟨0, [], ["a"], ["b"], [], []⟩ [.int 1]).recordsView
        = .error .assertionError ∧
    (DataCoordinate.basic ⟨0, [], ["a"], ["b"], [], []⟩ [.int 1]).region
        = .error .assertionError ∧
    (DataCoordinate.basic ⟨0, [], ["a"], ["b"], [], []⟩ [.int 1]).timespan
        = .error .assertionError ∧
    (DataCoordinate.basic ⟨0, [], ["a"], ["b"], [], []⟩ [.int 1]).pack ⟨0, [], []⟩ "p"
        = .error .assertionError := by
  have h := gated_accessors_raise
    (DataCoordinate.basic ⟨0, [], ["a"], ["b"], [], []⟩ [.int 1]) ⟨0, [], []⟩ "p"
  obtain ⟨h2a, h2b, h2c, h2d⟩ := h.2 rfl
  exact ⟨h.1 rfl, h2a, h2b, h2c, h2d⟩

/-- C5: constructing a `DimensionUniverse` for a version that already has a
cached instance returns that cached instance itself and leaves the cache
unchanged, whatever config or builder is supplied (both for an explicit
version and for a version taken from a supplied builder); and restoring a
serialized universe reference for a version with no cached instance is a
hard unpickling failure, never a reconstruction. -/
theorem universe_cache_and_unpickle (cache : List (Nat × DimensionUniverse))
    (cfg : Option DimensionConfig) (b? : Option DimensionConstructionBuilder) :
    (∀ (v : Nat) (u : DimensionUniverse), alookup cache v = some u →
        DimensionUniverse.new cache cfg (some v) b? = (u, cache)) ∧
    (∀ (b : DimensionConstructionBuilder) (u : DimensionUniverse),
        alookup cache b.version = some u →
        DimensionUniverse.new cache cfg none (some b) = (u, cache)) ∧
    (∀ v : Nat, alookup cache v = none →
        DimensionUniverse.unpickle cache v = .error ⟨v⟩) := by
  refine ⟨?_, ?_, ?_⟩
  · intro v u h
    simp [DimensionUniverse.new, h]
  · intro b u h
    simp [DimensionUniverse.new, h]
  · intro v h
    simp [DimensionUniverse.unpickle, h]

/-- Witness for C5: a concrete cache hit returns the cached universe, and a
concrete cache miss fails to unpickle. -/
theorem universe_cache_and_unpickle_witness :
    DimensionUniverse.new [(5, ⟨5, [], []⟩)] none (some 5) none
        = (⟨5, [], []⟩, [(5, ⟨5, [], []⟩)]) ∧
    DimensionUniverse.unpickle [(5, ⟨5, [], []⟩)] 6 = .error ⟨6⟩ := by
  have h := universe_cache_and_unpickle [(5, (⟨5, [], []⟩ : DimensionUniverse))] none none
  exact ⟨h.1 5 ⟨5, [], []⟩ rfl, h.2.2 6 rfl⟩

/-- C8: `associate` and `disassociate` on dataset record storage raise a
type-mismatch error for any collection whose type is not TAGGED, and the
database state is unchanged in that case (the error precedes any write or
delete); for a TAGGED collection both operations proceed. -/
theorem associate_disassociate_type_gate (db : DBState)
    (coll : CollectionRecord) (tid : Nat) (ds : List DatasetRef) :
    (coll.type ≠ CollectionType.tagged →
      associate coll tid ds db = (.error (.typeMismatch coll.name coll.type), db) ∧
      disassociate coll ds db = (.error (.typeMismatch coll.name coll.type), db)) ∧
    (coll.type = CollectionType.tagged →
      (associate coll tid ds db).1 = .ok () ∧
      (disassociate coll ds db).1 = .ok ()) := by
  constructor
  · intro h
    exact ⟨by simp [associate, h], by simp [disassociate, h]⟩
  · intro h
    exact ⟨by simp [associate, h], by simp [disassociate, h]⟩

/-- Witness for C8: a concrete RUN collection is rejected with the state
unchanged, and a concrete TAGGED collection is accepted. -/
theorem associate_disassociate_type_gate_witness :
    associate ⟨1, "r", .run⟩ 9 [⟨3, []⟩] ⟨[]⟩
        = (.error (.typeMismatch "r" .run), ⟨[]⟩) ∧
    disassociate ⟨1, "r", .run⟩ [⟨3, []⟩] ⟨[]⟩
        = (.error (.typeMismatch "r" .run), ⟨[]⟩) ∧
    (associate ⟨2, "t", .tagged⟩ 9 [⟨3, []⟩] ⟨[]⟩).1 = .ok () ∧
    (disassociate ⟨2, "t", .tagged⟩ [⟨3, []⟩] ⟨[]⟩).1 = .ok () := by
  have hr := associate_disassociate_type_gate ⟨[]⟩ ⟨1, "r", .run⟩ 9 [⟨3, []⟩]
  have ht := associate_disassociate_type_gate ⟨[]⟩ ⟨2, "t", .tagged⟩ 9 [⟨3, []⟩]
  obtain ⟨hr1, hr2⟩ := hr.1 (by decide)
  obtain ⟨ht1, ht2⟩ := ht.2 rfl
  exact ⟨hr1, hr2, ht1, ht2⟩

/-- C9 counterexample: the import backend accepts a record of kind `"run"`,
which is not among the five kinds the claim allows, so "a record carrying
any other kind tag is rejected" is false as stated. -/
theorem import_run_kind_counterexample :
    (classifyImportRecord "run").isOk = true ∧
    "run" ∉ ["dimension", "collection", "dataset_type", "dataset", "associations"] :=
  ⟨rfl, by decide⟩

/-- C9 amended: a record is accepted by the import backend's kind dispatch
exactly when its kind tag is one of the six kinds `dimension`, `collection`,
`run` (a legacy form), `dataset_type`, `dataset` and `associations`; any
other kind tag is rejected with an invalid-request (`ValueError`) error
naming the tag. -/
theorem import_kind_dispatch_amended (t : String) :
    ((classifyImportRecord t).isOk = true ↔
      t ∈ ["dimension", "collection", "run", "dataset_type", "dataset",
        "associations"]) ∧
    (t ∉ ["dimension", "collection", "run", "dataset_type", "dataset",
        "associations"] →
      classifyImportRecord t = .error (.unexpectedType t)) := by
  by_cases h1 : t = "dimension"
  · subst h1; exact ⟨by simp [classifyImportRecord, Except.isOk, Except.toBool], by simp⟩
  · by_cases h2 : t = "collection"
    · subst h2; exact ⟨by simp [classifyImportRecord, Except.isOk, Except.toBool], by simp⟩
    · by_cases h3 : t = "run"
      · subst h3; exact ⟨by simp [classifyImportRecord, Except.isOk, Except.toBool], by simp⟩
      · by_cases h4 : t = "dataset_type"
        · subst h4
          exact ⟨by simp [classifyImportRecord, Except.isOk, Except.toBool], by simp⟩
        · by_cases h5 : t = "dataset"
          · subst h5
            exact ⟨by simp [classifyImportRecord, Except.isOk, Except.toBool], by simp⟩
          · by_cases h6 : t = "associations"
            · subst h6
              exact ⟨by simp [classifyImportRecord, Except.isOk, Except.toBool], by simp⟩
            · constructor
              · rw [show classifyImportRecord t = .error (.unexpectedType t) by
                  simp [classifyImportRecord, h1, h2, h3, h4, h5, h6]]
                simp [Except.isOk, Except.toBool, h1, h2, h3, h4, h5, h6]
              · intro _
                simp [classifyImportRecord, h1, h2, h3, h4, h5, h6]

/-- Witness for C9 amended: a concrete unknown kind tag is rejected with the
invalid-request error. -/
theorem import_kind_dispatch_amended_witness :
    classifyImportRecord "banana" = .error (.unexpectedType "banana") :=
  (import_kind_dispatch_amended "banana").2 (by decide)

/-- C2: for `DataCoordinate` operands whose required values are present (as
the capability ladder guarantees for constructed coordinates), equality
holds exactly when the graphs are equal and the two coordinates agree on
every required dimension of that graph — implied dimensions are not
consulted — and equality implies equal hashes. -/
theorem dataCoordinate_eq_spec (a b : DataCoordinate)
    (ha : ∀ n ∈ a.graph.required, (a.getItem? n).isSome = true)
    (hb : ∀ n ∈ b.graph.required, (b.getItem? n).isSome = true) :
    (a.dcEq b = true ↔
      (a.graph = b.graph ∧ ∀ n ∈ a.graph.required, a.getItem? n = b.getItem? n)) ∧
    (a.dcEq b = true → a.dcHash = b.dcHash) := by
  have h1 : a.dcEq b = true ↔
      (a.graph = b.graph ∧ ∀ n ∈ a.graph.required, a.getItem? n = b.getItem? n) := by
    unfold DataCoordinate.dcEq
    rw [Bool.and_eq_true, decide_eq_true_eq, List.all_eq_true]
    constructor
    · rintro ⟨hg, hall⟩
      refine ⟨hg, fun n hn => ?_⟩
      have := hall n hn
      exact beq_iff_eq.mp (by simpa using this)
    · rintro ⟨hg, hall⟩
      refine ⟨hg, fun n hn => ?_⟩
      simpa using beq_iff_eq.mpr (hall n hn)
  refine ⟨h1, ?_⟩
  intro h
  obtain ⟨hg, hv⟩ := h1.mp h
  have hmap : a.graph.required.map (fun n => a.getItem? n)
      = b.graph.required.map (fun n => b.getItem? n) := by
    rw [← hg]
    exact List.map_congr_left hv
  unfold DataCoordinate.dcHash
  rw [hmap, hg]

/-- Witness for C2: two concrete full coordinates that differ only in the
value of the implied dimension compare equal and hash equal. -/
theorem dataCoordinate_eq_spec_witness :
    (DataCoordinate.basic ⟨0, [], ["a"], ["b"], [], []⟩ [.int 1, .int 2]).dcEq
      (DataCoordinate.basic ⟨0, [], ["a"], ["b"], [], []⟩ [.int 1, .int 3]) = true ∧
    (DataCoordinate.basic ⟨0, [], ["a"], ["b"], [], []⟩ [.int 1, .int 2]).dcHash
      = (DataCoordinate.basic ⟨0, [], ["a"], ["b"], [], []⟩ [.int 1, .int 3]).dcHash := by
  have h := dataCoordinate_eq_spec
    (DataCoordinate.basic ⟨0, [], ["a"], ["b"], [], []⟩ [.int 1, .int 2])
    (DataCoordinate.basic ⟨0, [], ["a"], ["b"], [], []⟩ [.int 1, .int 3])
    (by decide) (by decide)
  have he := h.1.mpr ⟨rfl, by decide⟩
  exact ⟨he, h.2 he⟩

theorem lookupAll_ok_of_covered {d : List (String × DataIdValue)} :
    ∀ {names : List String}, (∀ n ∈ names, (alookup d n).isSome = true) →
      ∃ vs, lookupAll d names = .ok vs := by
  intro names
  induction names with
  | nil => intro _; exact ⟨[], rfl⟩
  | cons n rest ih =>
    intro h
    have hn := h n (List.mem_cons_self n rest)
    cases ha : alookup d n with
    | none => rw [ha] at hn; cases hn
    | some v =>
      obtain ⟨vs, hvs⟩ := ih (fun m hm => h m (List.mem_cons_of_mem _ hm))
      exact ⟨v :: vs, by simp [lookupAll, ha, hvs]⟩

theorem isEmpty_false_of_ne_nil {l : List String} (h : l ≠ []) :
    l.isEmpty = false := by
  cases hd : l with
  | nil => exact absurd hd h
  | cons a rest => rfl

/-- The three outcome cases of the merge tail of `standardize` for a known
target graph with at least one dimension. -/
theorem standardizeWithGraph_cases (d : List (String × DataIdValue))
    (g : DimensionGraph) (hne : g.dimensionNames ≠ []) :
    ((g.dimensionNames.all (fun n => (alookup d n).isSome)) = true →
      ∃ vals, lookupAll d g.dimensionNames = .ok vals ∧
        DataCoordinate.standardizeWithGraph d g = .ok (.basic g vals) ∧
        (DataCoordinate.basic g vals).hasFull = true) ∧
    ((g.dimensionNames.all (fun n => (alookup d n).isSome)) = false →
      (g.required.all (fun n => (alookup d n).isSome)) = true →
      ∃ vals, lookupAll d g.required = .ok vals ∧
        DataCoordinate.standardizeWithGraph d g = .ok (.basic g vals) ∧
        (DataCoordinate.basic g vals).hasFull = false) ∧
    ((∃ n ∈ g.required, alookup d n = none) →
      ∃ n, n ∈ g.required ∧ alookup d n = none ∧
        DataCoordinate.standardizeWithGraph d g = .error (.keyError n)) := by
  have hemp := isEmpty_false_of_ne_nil hne
  refine ⟨?_, ?_, ?_⟩
  · intro hcov
    obtain ⟨vals, hvals⟩ := lookupAll_ok_of_covered (List.all_eq_true.mp hcov)
    refine ⟨vals, hvals, ?_, ?_⟩
    · unfold DataCoordinate.standardizeWithGraph
      rw [if_neg (by simp [hemp]), if_pos hcov, hvals]
    · have hlen := lookupAll_length hvals
      simp [hlen]
  · intro hcov hreq
    obtain ⟨vals, hvals⟩ := lookupAll_ok_of_covered (List.all_eq_true.mp hreq)
    refine ⟨vals, hvals, ?_, ?_⟩
    · unfold DataCoordinate.standardizeWithGraph
      rw [if_neg (by simp [hemp]), if_neg (by simp [hcov]), hvals]
    · have hlen := lookupAll_length hvals
      obtain ⟨n, hn, hnone⟩ := List.all_eq_false.mp hcov
      have hnreq : n ∉ g.required := by
        intro hmem
        exact hnone (List.all_eq_true.mp hreq n hmem)
      have himpl : n ∈ g.implied := by
        rw [DimensionGraph.dimensionNames] at hn
        rcases List.mem_append.mp hn with h' | h'
        · exact absurd h' hnreq
        · exact h'
      have hpos : 0 < g.implied.length := List.length_pos.mpr (by
        intro hnil
        rw [hnil] at himpl
        cases himpl)
      have : vals.length ≠ g.dimensionNames.length := by
        rw [hlen, DimensionGraph.dimensionNames, List.length_append]
        omega
      simp [beq_eq_false_iff_ne.mpr this]
  · intro hmiss
    obtain ⟨n, hn, hnone, herr⟩ := lookupAll_error_of_missing hmiss
    refine ⟨n, hn, hnone, ?_⟩
    have hcov : (g.dimensionNames.all (fun n => (alookup d n).isSome)) = false := by
      rw [List.all_eq_false]
      refine ⟨n, ?_, by simp [hnone]⟩
      rw [DimensionGraph.dimensionNames]
      exact List.mem_append_left _ hn
    unfold DataCoordinate.standardizeWithGraph
    rw [if_neg (by simp [hemp]), if_neg (by simp [hcov]), herr]

/-- C3: `standardize` with a name-keyed mapping, keyword overrides and an
explicit non-empty target graph.  If the merged keys cover all of the
graph's dimensions the result is a full coordinate; otherwise, if they cover
all of `graph.required`, it succeeds with a required-only (not full)
coordinate on the target graph; and if any required dimension has no value
it fails with a lookup error naming a missing required dimension. -/
theorem standardize_named_mapping_cases (m kw : List (String × DataIdValue))
    (g : DimensionGraph) (hne : g.dimensionNames ≠ []) :
    ((g.dimensionNames.all
        (fun n => (alookup (dictUpdate (dictUpdate [] m) kw) n).isSome)) = true →
      ∃ c, DataCoordinate.standardize (some (.inr m)) (some g) none kw = .ok c ∧
        c.hasFull = true ∧ c.graph = g) ∧
    ((g.dimensionNames.all
        (fun n => (alookup (dictUpdate (dictUpdate [] m) kw) n).isSome)) = false →
      (g.required.all
        (fun n => (alookup (dictUpdate (dictUpdate [] m) kw) n).isSome)) = true →
      ∃ c, DataCoordinate.standardize (some (.inr m)) (some g) none kw = .ok c ∧
        c.hasFull = false ∧ c.graph = g) ∧
    ((∃ n ∈ g.required, alookup (dictUpdate (dictUpdate [] m) kw) n = none) →
      ∃ n, n ∈ g.required ∧ alookup (dictUpdate (dictUpdate [] m) kw) n = none ∧
        DataCoordinate.standardize (some (.inr m)) (some g) none kw
          = .error (.keyError n)) := by
  have hred : DataCoordinate.standardize (some (.inr m)) (some g) none kw
      = DataCoordinate.standardizeWithGraph (dictUpdate (dictUpdate [] m) kw) g := rfl
  obtain ⟨h1, h2, h3⟩ := standardizeWithGraph_cases (dictUpdate (dictUpdate [] m) kw) g hne
  refine ⟨?_, ?_, ?_⟩
  · intro hcov
    obtain ⟨vals, _, hstd, hfull⟩ := h1 hcov
    exact ⟨.basic g vals, by rw [hred, hstd], hfull, rfl⟩
  · intro hcov hreq
    obtain ⟨vals, _, hstd, hfull⟩ := h2 hcov hreq
    exact ⟨.basic g vals, by rw [hred, hstd], hfull, rfl⟩
  · intro hmiss
    obtain ⟨n, hn, hnone, herr⟩ := h3 hmiss
    exact ⟨n, hn, hnone, by rw [hred, herr]⟩

/-- Witness for C3: the three outcomes at concrete inputs — full coverage
with an override, required-only coverage, and a missing required
dimension. -/
theorem standardize_named_mapping_cases_witness :
    (∃ c, DataCoordinate.standardize
        (some (.inr [("a", .int 1), ("b", .int 2)]))
        (some ⟨0, [], ["a"], ["b"], [], []⟩) none [] = .ok c ∧
      c.hasFull = true ∧ c.graph = ⟨0, [], ["a"], ["b"], [], []⟩) ∧
    (∃ c, DataCoordinate.standardize (some (.inr [("a", .int 1)]))
        (some ⟨0, [], ["a"], ["b"], [], []⟩) none [] = .ok c ∧
      c.hasFull = false ∧ c.graph = ⟨0, [], ["a"], ["b"], [], []⟩) ∧
    (∃ n, n ∈ (DimensionGraph.mk 0 [] ["a"] ["b"] [] []).required ∧
      alookup (dictUpdate (dictUpdate [] [("b", DataIdValue.int 2)]) []) n = none ∧
      DataCoordinate.standardize (some (.inr [("b", .int 2)]))
        (some ⟨0, [], ["a"], ["b"], [], []⟩) none [] = .error (.keyError n)) := by
  have hfull := (standardize_named_mapping_cases [("a", .int 1), ("b", .int 2)] []
    ⟨0, [], ["a"], ["b"], [], []⟩ (by decide)).1 (by decide)
  have hreqOnly := (standardize_named_mapping_cases [("a", .int 1)] []
    ⟨0, [], ["a"], ["b"], [], []⟩ (by decide)).2.1 (by decide) (by decide)
  have hmissing := (standardize_named_mapping_cases [("b", .int 2)] []
    ⟨0, [], ["a"], ["b"], [], []⟩ (by decide)).2.2 ⟨"a", by decide, by decide⟩
  exact ⟨hfull, hreqOnly, hmissing⟩

/-- A graph with no dimensions and no families is its universe's empty
graph. -/
theorem empty_universe_graph {g : DimensionGraph} (h1 : g.required = [])
    (h2 : g.implied = []) (h3 : g.spatial = []) (h4 : g.temporal = []) :
    DimensionUniverse.empty g.universe = g := by
  obtain ⟨v, dims, rq, im, sp, tp⟩ := g
  dsimp only at h1 h2 h3 h4
  subst h1 h2 h3 h4
  rfl

/-- A basic coordinate built from a full-tuple lookup answers `__getitem__`
with the dictionary's value. -/
theorem basic_getItem_lookupAll_full {g : DimensionGraph}
    {D : List (String × DataIdValue)} {vals : List DataIdValue}
    (h : lookupAll D g.dimensionNames = .ok vals) {n : String}
    (hn : n ∈ g.dimensionNames) :
    (DataCoordinate.basic g vals).getItem? n = alookup D n := by
  obtain ⟨i, hi, _⟩ := idxOf?_mem hn
  have hdim : g.dimensionNames[i]? = some n := idxOf?_getElem hi
  unfold DataCoordinate.getItem?
  simp only [graph_basic, values_basic]
  rw [hi]
  exact lookupAll_get h hdim

/-- A basic coordinate built from a required-tuple lookup answers
`__getitem__` at required names with the dictionary's value. -/
theorem basic_getItem_lookupAll_req {g : DimensionGraph}
    {D : List (String × DataIdValue)} {vals : List DataIdValue}
    (h : lookupAll D g.required = .ok vals) {n : String}
    (hn : n ∈ g.required) :
    (DataCoordinate.basic g vals).getItem? n = alookup D n := by
  obtain ⟨i, hi, hlt⟩ := idxOf?_append_left g.implied hn
  have hi' : idxOf? n g.dimensionNames = some i := by
    rw [DimensionGraph.dimensionNames]
    exact hi
  have hdim : g.dimensionNames[i]? = some n := idxOf?_getElem hi'
  have hreq : g.required[i]? = some n := by
    rw [DimensionGraph.dimensionNames, List.getElem?_append] at hdim
    rwa [if_pos hlt] at hdim
  unfold DataCoordinate.getItem?
  simp only [graph_basic, values_basic]
  rw [hi']
  exact lookupAll_get h hreq

/-- C4: for every previously constructed coordinate (one whose required
values resolve, so that `byName` succeeds, and whose graph satisfies the
interning invariant), standardizing its name-keyed form back onto its own
graph yields a coordinate equal to it under `DataCoordinate.__eq__`. -/
theorem standardize_byName_roundTrip (c : DataCoordinate)
    (hwf : c.graph.WF) {d : List (String × DataIdValue)}
    (hby : c.byName = .ok d) :
    ∃ c', DataCoordinate.standardize (some (.inr d)) (some c.graph) none [] = .ok c' ∧
      c'.dcEq c = true := by
  obtain ⟨hp1, hp2⟩ := getPairs_sound hby
  have hagree : ∀ n v, alookup (dictUpdate [] d) n = some v → c.getItem? n = some v := by
    refine dictUpdate_lookup_sub (fun n => c.getItem? n) d [] hp1 ?_
    intro n v h
    simp [alookup] at h
  have hcover : ∀ n ∈ c.graph.required,
      (alookup (dictUpdate [] d) n).isSome = true := by
    intro n hn
    exact dictUpdate_isSome d [] n (Or.inl (hp2 n hn))
  have hgetEq : ∀ n ∈ c.graph.required, alookup (dictUpdate [] d) n = c.getItem? n := by
    intro n hn
    have hs := hcover n hn
    cases ha : alookup (dictUpdate [] d) n with
    | none => rw [ha] at hs; cases hs
    | some v => rw [hagree n v ha]
  have hred : DataCoordinate.standardize (some (.inr d)) (some c.graph) none []
      = DataCoordinate.standardizeWithGraph (dictUpdate [] d) c.graph := rfl
  rw [hred]
  by_cases hemp : c.graph.dimensionNames = []
  · obtain ⟨hreqnil, himplnil⟩ :=
      List.append_eq_nil.mp (by rwa [DimensionGraph.dimensionNames] at hemp)
    obtain ⟨hsp, htp⟩ := hwf hreqnil himplnil
    have hgeq := empty_universe_graph hreqnil himplnil hsp htp
    refine ⟨DataCoordinate.makeEmpty c.graph.universe, ?_, ?_⟩
    · unfold DataCoordinate.standardizeWithGraph
      rw [if_pos (by simp [hemp])]
    · unfold DataCoordinate.dcEq
      rw [Bool.and_eq_true]
      constructor
      · rw [decide_eq_true_eq]
        exact hgeq
      · rw [List.all_eq_true]
        intro n hn
        rw [show (DataCoordinate.makeEmpty c.graph.universe).graph.required = []
          from rfl] at hn
        cases hn
  · by_cases hcov : (c.graph.dimensionNames.all
        (fun n => (alookup (dictUpdate [] d) n).isSome)) = true
    · obtain ⟨vals, hvals, hstd, _⟩ :=
        (standardizeWithGraph_cases (dictUpdate [] d) c.graph hemp).1 hcov
      refine ⟨.basic c.graph vals, hstd, ?_⟩
      unfold DataCoordinate.dcEq
      rw [Bool.and_eq_true]
      refine ⟨by simp, ?_⟩
      rw [List.all_eq_true]
      intro n hn
      have hn' : n ∈ c.graph.required := by simpa using hn
      have hmem : n ∈ c.graph.dimensionNames := by
        rw [DimensionGraph.dimensionNames]
        exact List.mem_append_left _ hn'
      have := basic_getItem_lookupAll_full hvals hmem
      show ((DataCoordinate.basic c.graph vals).getItem? n == c.getItem? n) = true
      rw [show ((DataCoordinate.basic c.graph vals).getItem? n
          == c.getItem? n) = true ↔ (DataCoordinate.basic c.graph vals).getItem? n
          = c.getItem? n from beq_iff_eq]
      rw [this, hgetEq n hn']
    · have hreq : (c.graph.required.all
          (fun n => (alookup (dictUpdate [] d) n).isSome)) = true :=
        List.all_eq_true.mpr hcover
      obtain ⟨vals, hvals, hstd, _⟩ :=
        (standardizeWithGraph_cases (dictUpdate [] d) c.graph hemp).2.1
          (by simpa using hcov) hreq
      refine ⟨.basic c.graph vals, hstd, ?_⟩
      unfold DataCoordinate.dcEq
      rw [Bool.and_eq_true]
      refine ⟨by simp, ?_⟩
      rw [List.all_eq_true]
      intro n hn
      have hn' : n ∈ c.graph.required := by simpa using hn
      have := basic_getItem_lookupAll_req hvals hn'
      show ((DataCoordinate.basic c.graph vals).getItem? n == c.getItem? n) = true
      rw [show ((DataCoordinate.basic c.graph vals).getItem? n
          == c.getItem? n) = true ↔ (DataCoordinate.basic c.graph vals).getItem? n
          = c.getItem? n from beq_iff_eq]
      rw [this, hgetEq n hn']

/-- Witness for C4: the round trip at a concrete coordinate with an implied
dimension. -/
theorem standardize_byName_roundTrip_witness :
    ∃ c', DataCoordinate.standardize (some (.inr [("a", .int 1)]))
        (some ⟨0, [], ["a"], ["b"], [], []⟩) none [] = .ok c' ∧
      c'.dcEq (DataCoordinate.basic ⟨0, [], ["a"], ["b"], [], []⟩ [.int 1]) = true :=
  standardize_byName_roundTrip
    (DataCoordinate.basic ⟨0, [], ["a"], ["b"], [], []⟩ [.int 1])
    (by intro h; cases h) rfl

theorem regionLoop_of_missing {c : DataCoordinate} :
    ∀ {fams : List TopoFamily} (acc : List Region),
      (∀ fam ∈ fams, ∃ r, c.recordFor fam.chooseName = .ok r) →
      (∃ fam ∈ fams, c.famRegion fam = none) →
      c.regionLoop fams acc = .ok .noRegion := by
  intro fams
  induction fams with
  | nil =>
    intro acc _ hmiss
    simp at hmiss
  | cons f rest ih =>
    intro acc hrec hmiss
    obtain ⟨r, hr⟩ := hrec f (List.mem_cons_self f rest)
    cases r with
    | none =>
      simp only [DataCoordinate.regionLoop]
      rw [hr]
    | some rec =>
      cases hregion : rec.region with
      | none =>
        simp only [DataCoordinate.regionLoop]
        rw [hr]
        simp [hregion]
      | some reg =>
        have hfam : c.famRegion f = some reg := by
          unfold DataCoordinate.famRegion
          rw [hr]
          exact hregion
        obtain ⟨f', hf', hnone⟩ := hmiss
        have hf'' : f' ∈ rest := by
          rcases List.mem_cons.mp hf' with h' | h'
          · subst h'
            rw [hfam] at hnone
            cases hnone
          · exact h'
        simp only [DataCoordinate.regionLoop]
        rw [hr]
        simp only [hregion]
        exact ih _ (fun q hq => hrec q (List.mem_cons_of_mem _ hq)) ⟨f', hf'', hnone⟩

theorem regionLoop_of_all {c : DataCoordinate} :
    ∀ {fams : List TopoFamily} (rs : List Region) (acc : List Region),
      (∀ fam ∈ fams, ∃ r, c.recordFor fam.chooseName = .ok r) →
      fams.map c.famRegion = rs.map some →
      c.regionLoop fams acc = .ok (intersectRegions (acc ++ rs)) := by
  intro fams
  induction fams with
  | nil =>
    intro rs acc _ hmap
    have hnil : rs = [] := by
      cases rs with
      | nil => rfl
      | cons a l => simp at hmap
    subst hnil
    simp [DataCoordinate.regionLoop]
  | cons f rest ih =>
    intro rs acc hrec hmap
    cases rs with
    | nil => simp at hmap
    | cons r0 rs' =>
      simp only [List.map_cons, List.cons.injEq] at hmap
      obtain ⟨h0, hrest⟩ := hmap
      obtain ⟨rec?, hr⟩ := hrec f (List.mem_cons_self f rest)
      cases rec? with
      | none =>
        unfold DataCoordinate.famRegion at h0
        rw [hr] at h0
        exact Option.noConfusion h0
      | some rec =>
        have hregion : rec.region = some r0 := by
          unfold DataCoordinate.famRegion at h0
          rw [hr] at h0
          exact h0
        simp only [DataCoordinate.regionLoop]
        rw [hr]
        simp only [hregion]
        rw [ih rs' _ (fun q hq => hrec q (List.mem_cons_of_mem _ hq)) hrest]
        rw [List.append_assoc]
        rfl

/-- C6 counterexample: a record-backed coordinate whose graph has two
spatial families, exactly one of which supplies a non-empty region: the
`region` accessor returns `None` (the loop returns early on the empty
family), not the contributed region, so the claim as stated is false. -/
theorem region_single_region_counterexample :
    twoFamilyCoord.hasRecords = true ∧
    twoFamilyCoord.graph.spatial.map twoFamilyCoord.famRegion
      = [some ⟨7⟩, none] ∧
    twoFamilyCoord.region = .ok .noRegion ∧
    RegionResult.noRegion ≠ .region ⟨7⟩ := by
  refine ⟨rfl, rfl, rfl, by decide⟩

/-- C6 amended: for a record-backed coordinate (with records available for
every spatial family's chosen element), `region` returns `None` when the
graph has no spatial families or when any spatial family supplies no
region; it returns the contributed region when every family supplies one
and there is exactly one; and it returns the explicit `NotImplemented`
placeholder when every family supplies one and there are at least two. -/
theorem region_spec_amended (c : DataCoordinate) (h : c.hasRecords = true)
    (hrec : ∀ fam ∈ c.graph.spatial, ∃ r, c.recordFor fam.chooseName = .ok r) :
    (c.graph.spatial = [] → c.region = .ok .noRegion) ∧
    ((∃ fam ∈ c.graph.spatial, c.famRegion fam = none) →
      c.region = .ok .noRegion) ∧
    (∀ r : Region, c.graph.spatial.map c.famRegion = [some r] →
      c.region = .ok (.region r)) ∧
    (∀ rs : List Region, 2 ≤ rs.length →
      c.graph.spatial.map c.famRegion = rs.map some →
      c.region = .ok .notImplemented) := by
  have hreg : c.region = c.regionLoop c.graph.spatial [] := by
    simp [DataCoordinate.region, h]
  refine ⟨?_, ?_, ?_, ?_⟩
  · intro hnil
    rw [hreg, hnil]
    rfl
  · intro hmiss
    rw [hreg]
    exact regionLoop_of_missing [] hrec hmiss
  · intro r hmap
    rw [hreg, regionLoop_of_all [r] [] hrec hmap]
    rfl
  · intro rs hlen hmap
    rw [hreg, regionLoop_of_all rs [] hrec hmap]
    cases rs with
    | nil => simp at hlen
    | cons a l =>
      cases l with
      | nil => simp at hlen
      | cons b l2 => rfl

/-- Witness for C6 amended: at the concrete two-family coordinate, the
family with no region forces the `None` outcome. -/
theorem region_spec_amended_witness :
    twoFamilyCoord.region = .ok .noRegion :=
  (region_spec_amended twoFamilyCoord rfl (by
    intro fam hfam
    rcases List.mem_cons.mp hfam with h | h
    · subst h
      exact ⟨some ⟨.int 1, some ⟨7⟩, none⟩, rfl⟩
    · rcases List.mem_cons.mp h with h' | h'
      · subst h'
        exact ⟨some ⟨.int 2, none, none⟩, rfl⟩
      · cases h')).2.1 ⟨⟨"b"⟩, by decide, rfl⟩

/-- C10 counterexample: with an existing coordinate and an explicit empty
target graph, `standardize` short-circuits to `subset` (the empty keyword
set is disjoint from every graph), and `subset` returns a basic coordinate
on the empty graph whose `hasRecords()` is false — contradicting the claim
that `standardize` with an empty resolved target graph always returns a
coordinate with `hasRecords()` true. -/
theorem standardize_empty_graph_counterexample :
    (DimensionGraph.mk 0 [] [] [] [] []).dimensionNames = [] ∧
    DataCoordinate.standardize
        (some (.inl (.basic ⟨0, [], ["a"], [], [], []⟩ [.int 1])))
        (some ⟨0, [], [], [], [], []⟩) none []
      = .ok (.basic ⟨0, [], [], [], [], []⟩ []) ∧
    (DataCoordinate.basic ⟨0, [], [], [], [], []⟩ []).hasRecords = false ∧
    (DataCoordinate.basic ⟨0, [], [], [], [], []⟩ []).hasFull = true :=
  ⟨rfl, rfl, rfl, rfl⟩

/-- C10 amended: `makeEmpty` returns a coordinate for which `hasFull()` and
`hasRecords()` are true and whose `full` and `records` mappings are empty,
and the merge path of `standardize` returns exactly that coordinate
whenever the resolved target graph has no dimensions; the short-circuit
paths of `standardize` (returning the input coordinate or its `subset`) may
instead return an empty-graph coordinate with `hasRecords()` false. -/
theorem makeEmpty_empty_graph_amended :
    (∀ u : DimensionUniverse,
      (DataCoordinate.makeEmpty u).hasFull = true ∧
      (DataCoordinate.makeEmpty u).hasRecords = true ∧
      (DataCoordinate.makeEmpty u).full = .ok [] ∧
      (DataCoordinate.makeEmpty u).recordsView = .ok []) ∧
    (∀ (d : List (String × DataIdValue)) (g : DimensionGraph),
      g.dimensionNames = [] →
      DataCoordinate.standardizeWithGraph d g
        = .ok (DataCoordinate.makeEmpty g.universe)) := by
  constructor
  · intro u
    exact ⟨rfl, rfl, rfl, rfl⟩
  · intro d g hg
    unfold DataCoordinate.standardizeWithGraph
    rw [if_pos (by simp [hg])]

/-- Witness for C10 amended: the merge path at a concrete dictionary and the
concrete empty graph returns the `makeEmpty` coordinate. -/
theorem makeEmpty_empty_graph_amended_witness :
    DataCoordinate.standardizeWithGraph [("x", .int 3)] ⟨0, [], [], [], [], []⟩
      = .ok (DataCoordinate.makeEmpty
          (DimensionGraph.universe ⟨0, [], [], [], [], []⟩)) :=
  makeEmpty_empty_graph_amended.2 [("x", .int 3)] ⟨0, [], [], [], [], []⟩ rfl

end Butler
